import Mathlib

/-!
Verification development for the YouTube→Discord mirror bot (`bot.py`).

The Python source is shallowly embedded below: each pure function is
translated to a Lean function of the same name; the stateful polling
loops become explicit state-transition functions whose external effects
(channel renames, message sends, file writes) are returned as data.
Python dictionaries are modelled as association lists in insertion
order; Python truthiness of optional strings / integers is made
explicit.
-/

namespace YTBot

/-! ## Generic helpers: Python strings and dictionaries -/

/-- Tests whether `pat` is an initial segment of `cs`
(character-by-character comparison). -/
def listStartsWith : List Char → List Char → Bool
  | [], _ => true
  | _ :: _, [] => false
  | p :: ps, c :: cs => p == c && listStartsWith ps cs

/-- Python's substring test `pat in s`. -/
def containsSub (s pat : String) : Bool :=
  (List.range (s.toList.length + 1)).any (fun i => listStartsWith pat.toList (s.toList.drop i))

/-- Python truthiness of an optional string: `None` and `""` are falsy. -/
def optTruthy : Option String → Bool
  | none => false
  | some s => s ≠ ""

/-- A Python `dict` in insertion order: association list with the key first. -/
abbrev PyDict (α : Type) : Type := List (String × α)

/-- Lookup `d[k]` returning `none` when the key is absent (`dict.get`).
Keys of a Python dict are unique, so first-match lookup is exact. -/
def dictGet {α : Type} : PyDict α → String → Option α
  | [], _ => none
  | p :: d, k => if p.1 = k then some p.2 else dictGet d k

/-- Assignment `d[k] = v`: replace the value at an existing key, otherwise append the
new binding at the end (Python dicts keep insertion order). -/
def dictInsert {α : Type} : PyDict α → String → α → PyDict α
  | [], k, v => [(k, v)]
  | p :: d, k, v => if p.1 = k then (k, v) :: d else p :: dictInsert d k v

/-- Python's `d.update(kvs)`: insert every binding of `kvs` in order. -/
def dictUpdate {α : Type} (d : PyDict α) (kvs : List (String × α)) : PyDict α :=
  kvs.foldl (fun acc p => dictInsert acc p.1 p.2) d

/-- The keys of a dictionary, in order. -/
def dictKeys {α : Type} (d : PyDict α) : List String :=
  d.map Prod.fst

/-! ## Feed entries (`parse_rss_entries`, `accumulate_from_rss`) -/

/-- One normalized upload-feed entry, the dict
`{"id": ..., "title": ..., "link": ..., "thumb": ...}` built by
`parse_rss_entries`.  `title` and `thumb` may be Python `None`
(`Option.none` here); `id` and `link` are strings (possibly empty in a
hand-built dict, always non-empty in parser output). -/
structure FeedEntry where
  id : String
  title : Option String
  link : String
  thumb : Option String
deriving DecidableEq, Repr

/-- One `<entry>` element of the Atom feed, reduced to exactly the pieces
`parse_rss_entries` reads: the optional `atom:title` element and its text,
the optional `atom:link` element and its `href` attribute, the optional
`yt:videoId` element and its text, and the `url` attributes of the
`media:thumbnail` elements inside `media:group` (empty list when the
group is absent).  The outer `Option` is element presence, the inner one
is the element's text / attribute, which `ElementTree` reports as `None`
when missing. -/
structure RssCandidate where
  titleText : Option (Option String)
  linkHref : Option (Option String)
  videoIdText : Option (Option String)
  thumbUrls : List (Option String)
deriving DecidableEq, Repr

/-- The loop body of `parse_rss_entries` (bot.py:422-435) for a single
`<entry>`: the title defaults to `"Video"` when the title element is
absent; the thumbnail is the `url` of the last listed `media:thumbnail`,
if any; the candidate is kept only when video id and link are both truthy
(`if video_id and link`). -/
def parseEntryCandidate (c : RssCandidate) : Option FeedEntry :=
  let title : Option String :=
    match c.titleText with
    | some t => t
    | none => some "Video"
  let link : Option String := c.linkHref.join
  let video_id : Option String := c.videoIdText.join
  let thumb : Option String := c.thumbUrls.getLast?.join
  if optTruthy video_id ∧ optTruthy link then
    some ⟨video_id.getD "", title, link.getD "", thumb⟩
  else none

/-- Embeds `parse_rss_entries` (bot.py:412-436) after XML parsing: the accepted
candidates in feed order. -/
def parse_rss_entries (entries : List RssCandidate) : List FeedEntry :=
  entries.filterMap parseEntryCandidate

/-- Embeds `cache[vid].update({k: v for k, v in e.items() if v})` (bot.py:463):
overwrite exactly the fields whose incoming value is truthy. -/
def mergeEntry (old new : FeedEntry) : FeedEntry :=
  { id := if new.id ≠ "" then new.id else old.id
    title := if optTruthy new.title then new.title else old.title
    link := if new.link ≠ "" then new.link else old.link
    thumb := if optTruthy new.thumb then new.thumb else old.thumb }

/-- Embeds `accumulate_from_rss` (bot.py:455-464): fold the parsed entries into the
cache dict, inserting unseen ids (counted in `added`) and partially merging
entries whose id is already present.  Returns the final cache and `added`. -/
def accumulate_from_rss : PyDict FeedEntry → List FeedEntry → PyDict FeedEntry × Nat
  | cache, [] => (cache, 0)
  | cache, e :: es =>
    match dictGet cache e.id with
    | none =>
      let r := accumulate_from_rss (cache ++ [(e.id, e)]) es
      (r.1, r.2 + 1)
    | some old => accumulate_from_rss (dictInsert cache e.id (mergeEntry old e)) es

/-- One body of `rss_refresh_loop` (bot.py:528-531) after a successful fetch
and parse: merge into the loaded cache, and write the cache file only when
`added` is truthy.  Result: (new cache, added, whether the file was written). -/
def rss_refresh_cycle (cache : PyDict FeedEntry) (entries : List FeedEntry) :
    PyDict FeedEntry × Nat × Bool :=
  let r := accumulate_from_rss cache entries
  (r.1, r.2, decide (r.2 ≠ 0))

/-! ## Stats channels (`fmt_num`, `update_stats_channels`) -/

/-- A `(subs, views, videos)` triple from `yt_channels_statistics`. -/
abbrev Stats := Nat × Nat × Nat

/-- Embeds `fmt_num` (bot.py:128-129), Python's `f"{n:,}"`: decimal digits grouped
in threes by commas from the right. -/
def fmt_num (n : Nat) : String :=
  let rev := (toString n).toList.reverse
  let grouped := ((rev.enum.map
    (fun p => if p.1 ≠ 0 ∧ p.1 % 3 = 0 then [',', p.2] else [p.2])).foldr (· ++ ·) [])
  String.mk grouped.reverse

/-- The persisted ids of the four stats display channels
(`VC_SUBS_ID`, `VC_VIEWS_ID`, `VC_VIDEOS_ID`, `VC_GOAL_ID`), each
`Optional[int]`. -/
structure StatsChannelIds where
  subs : Option Nat
  views : Option Nat
  videos : Option Nat
  goal : Option Nat
deriving DecidableEq, Repr

/-- One attempted `ch.edit(name=...)` call on a voice channel. -/
structure Edit where
  chId : Nat
  name : String
deriving DecidableEq, Repr

/-- The `updates` list of `update_stats_channels` (bot.py:354-359). -/
def stats_updates (subsGoal : Nat) (ids : StatsChannelIds) (s : Stats) :
    List (Option Nat × String) :=
  [(ids.subs, "📊 Subs: " ++ fmt_num s.1),
   (ids.views, "👁️ Views: " ++ fmt_num s.2.1),
   (ids.videos, "🎞️ Videos: " ++ fmt_num s.2.2),
   (ids.goal, "🎯 Goal: " ++ fmt_num subsGoal)]

/-- The edits attempted by the loop of `update_stats_channels`
(bot.py:360-372): skip falsy ids (`None` / `0`) and ids that do not resolve
to a voice channel (`isVoice` models `guild.get_channel` + the
`isinstance` check); every remaining pair gets exactly one `ch.edit`. -/
def stats_edits (isVoice : Nat → Bool) (subsGoal : Nat) (ids : StatsChannelIds) (s : Stats) :
    List Edit :=
  (stats_updates subsGoal ids s).filterMap (fun p =>
    match p.1 with
    | none => none
    | some chId => if chId ≠ 0 ∧ isVoice chId then some ⟨chId, p.2⟩ else none)

/-- Embeds `update_stats_channels` (bot.py:347-372) as a state transition: compare
the fetched triple against `_last_stats`; on equality return with no edits,
otherwise set `_last_stats := stats` and attempt one edit per entry of the
`updates` list.  Result: (new `_last_stats`, attempted edits). -/
def update_stats_channels (isVoice : Nat → Bool) (subsGoal : Nat) (ids : StatsChannelIds)
    (lastStats : Option Stats) (stats : Stats) : Option Stats × List Edit :=
  if lastStats = some stats then (lastStats, [])
  else (some stats, stats_edits isVoice subsGoal ids stats)

/-- An observable event of one `update_stats_channels` run, in program
order: the assignment `_last_stats = stats` (line 352), or one attempted
`ch.edit` with its outcome (`success = false` models a caught
`Forbidden` / `HTTPException`, which the source logs and ignores). -/
inductive StatsEv where
  | commit (s : Stats)
  | editAttempt (chId : Nat) (name : String) (success : Bool)
deriving DecidableEq, Repr

/-- Embeds `update_stats_channels` again, now recording the ordered event trace.
`editOk` models whether a given channel edit succeeds; failures are caught
inside the loop (bot.py:369-372) and never touch `_last_stats`, so the
returned state does not depend on `editOk`. -/
def update_stats_channels_trace (isVoice : Nat → Bool) (editOk : Nat → Bool) (subsGoal : Nat)
    (ids : StatsChannelIds) (lastStats : Option Stats) (stats : Stats) :
    Option Stats × List StatsEv :=
  if lastStats = some stats then (lastStats, [])
  else
    (some stats,
      StatsEv.commit stats ::
        (stats_edits isVoice subsGoal ids stats).map
          (fun e => StatsEv.editAttempt e.chId e.name (editOk e.chId)))

/-! ## Channel ID store (`load_ids`, `save_ids`, `ensure_stats_voice_channels`) -/

/-- A JSON value as `json.load` can produce it for a field of the channel-id
store: an integer, a string, or anything else. -/
inductive JVal where
  | jint (n : Int)
  | jstr (s : String)
  | jother
deriving DecidableEq, Repr

/-- Python's `s.isdigit()` restricted to ASCII: non-empty and all digits. -/
def strIsDigit (s : String) : Bool :=
  !s.isEmpty && s.toList.all Char.isDigit

/-- The per-value filter of `load_ids` (bot.py:98):
`isinstance(v, (int, str)) and str(v).isdigit()`, then `int(v)`.
`str(n).isdigit()` holds exactly for non-negative integers. -/
def jvalAsId : JVal → Option Nat
  | JVal.jint n => if 0 ≤ n then some n.toNat else none
  | JVal.jstr s => if strIsDigit s then s.toNat? else none
  | JVal.jother => none

/-- Embeds `load_ids` (bot.py:93-101).  Here `file = none` models a missing or
unreadable/corrupt store (the `except` branch): the result is `{}`. -/
def load_ids (file : Option (PyDict JVal)) : PyDict Nat :=
  match file with
  | none => []
  | some data => data.filterMap (fun p => (jvalAsId p.2).map (fun n => (p.1, n)))

/-- Embeds `save_ids` (bot.py:103-109): serialize only the bindings whose value is
truthy (drop `None` and `0`). -/
def save_ids (ids : PyDict (Option Nat)) : PyDict Nat :=
  ids.filterMap (fun p =>
    match p.2 with
    | some n => if n ≠ 0 then some (p.1, n) else none
    | none => none)

/-- The six `VC_*_ID` globals after channel resolution, each `Optional[int]`. -/
structure VcIds where
  subs : Option Nat
  views : Option Nat
  videos : Option Nat
  goal : Option Nat
  members : Option Nat
  live : Option Nat
deriving DecidableEq, Repr

/-- The six logical role names of the store. -/
def roleKeys : List String :=
  ["subs", "views", "videos", "goal", "members", "live"]

/-- The id-store part of one `load_ids` → `ensure_stats_voice_channels`
cycle (bot.py:111, 271-275): `_id_cache = load_ids()`, then
`_id_cache.update({...six roles...})`, then `save_ids(_id_cache)`.
Returns the persisted store. -/
def ensure_ids_cycle (file : Option (PyDict JVal)) (vc : VcIds) : PyDict Nat :=
  let cache : PyDict (Option Nat) := (load_ids file).map (fun p => (p.1, some p.2))
  save_ids (dictUpdate cache
    [("subs", vc.subs), ("views", vc.views), ("videos", vc.videos),
     ("goal", vc.goal), ("members", vc.members), ("live", vc.live)])

/-! ## Live-state classifier (`yt_is_live_noapi`, `live_status_loop_noapi`) -/

/-- The three resolved live states; the classifier's `None` (`Unknown`)
is `Option.none` around this type. -/
inductive LiveState where
  | live
  | upcoming
  | offline
deriving DecidableEq, Repr

/-- Embeds `'"isLiveBroadcast":true' in h or '"status":"LIVE"' in h` (bot.py:636,650). -/
def liveFlags (h : String) : Bool :=
  containsSub h "\"isLiveBroadcast\":true" || containsSub h "\"status\":\"LIVE\""

/-- Embeds `'"isUpcoming":true' in h or '"upcomingEventData"' in h` (bot.py:638,656). -/
def upcomingFlags (h : String) : Bool :=
  containsSub h "\"isUpcoming\":true" || containsSub h "\"upcomingEventData\""

/-- Embeds `'"isLiveBroadcast":false' in h or '"status":"OFFLINE"' in h` (bot.py:640,652). -/
def offlineFlags (h : String) : Bool :=
  containsSub h "\"isLiveBroadcast\":false" || containsSub h "\"status\":\"OFFLINE\""

/-- Embeds `yt_is_live_noapi` (bot.py:607-668) on an already-fetched `/live` page.
`canon` is the result of `CANONICAL_RE.search` (the captured `href`, if the
canonical-link marker matched); `fetch2 href` is the body of the secondary
request on the canonical watch URL, `none` when that request raises.
Returns the classification (`none` = inconclusive/Unknown) together with a
flag recording whether the secondary fetch was performed. -/
def yt_is_live_noapi (canon : Option String) (fetch2 : String → Option String)
    (html : String) : Option LiveState × Bool :=
  let fallthrough : Option LiveState × Bool :=
    if liveFlags html then (some LiveState.live, false)
    else if offlineFlags html then (some LiveState.offline, false)
    else if upcomingFlags html then (some LiveState.upcoming, false)
    else (none, false)
  match canon with
  | some href =>
    if containsSub href "/watch" then
      match fetch2 href with
      | some html2 =>
        if liveFlags html2 then (some LiveState.live, true)
        else if upcomingFlags html2 then (some LiveState.upcoming, true)
        else if offlineFlags html2 then (some LiveState.offline, true)
        else (some LiveState.live, true)
      | none => (some LiveState.live, true)
    else if containsSub href "/channel/" then (some LiveState.offline, false)
    else fallthrough
  | none => fallthrough

/-- The channel name chosen for a resolved state (bot.py:694-705). -/
def live_target_name : LiveState → String
  | LiveState.live => "🟢 LIVE"
  | LiveState.upcoming => "🟡 UPCOMING"
  | LiveState.offline => "🔴 OFFLINE"

/-- The state-transition core of `live_status_loop_noapi` (bot.py:683-749)
after the classifier ran: on `none` keep everything (early return before
`_last_live_state` is read); on an unchanged resolved state do nothing;
otherwise store the new state, rename the Live channel when its current
name differs from the target, and send a notification when an alert
channel is configured.  Result:
(new `_last_live_state`, edit issued, notification sent). -/
def live_status_step (chName : String) (alertConfigured : Bool)
    (lastLive : Option LiveState) (state : Option LiveState) :
    Option LiveState × Bool × Bool :=
  match state with
  | none => (lastLive, false, false)
  | some s =>
    if lastLive = some s then (lastLive, false, false)
    else (some s, decide (chName ≠ live_target_name s), alertConfigured)

/-! ## Reminder queue (`reminder_loop`) -/

/-- Python's `l.insert(k, a)`: insert before position `k`, clamping to an
append when `k ≥ len(l)`. -/
def pyInsert {α : Type} (l : List α) (k : Nat) (a : α) : List α :=
  l.take k ++ a :: l.drop k

/-- The queue manipulation of one `reminder_loop` body (bot.py:558-569):
`entry = reminder_queue.pop()` — remove the last element, raising
(`none` here) on an empty queue — then
`reminder_queue.insert(k, entry)` where
`k = random.randint(0, max(0, len(reminder_queue)))` after the pop. -/
def reminder_cycle {α : Type} (q : List α) (k : Nat) : Option (List α) :=
  match q.getLast? with
  | none => none
  | some entry => some (pyInsert q.dropLast k entry)

/-! ## Dictionary lemmas -/

theorem dictGet_dictInsert {α : Type} (d : PyDict α) (k k' : String) (v : α) :
    dictGet (dictInsert d k v) k' = if k = k' then some v else dictGet d k' := by
  induction d with
  | nil => simp [dictInsert, dictGet]
  | cons p d ih =>
    by_cases hp : p.1 = k
    · subst hp
      by_cases hk : p.1 = k' <;> simp [dictInsert, dictGet, hk]
    · by_cases hk : p.1 = k'
      · subst hk
        have : ¬ k = p.1 := fun h => hp h.symm
        simp [dictInsert, dictGet, hp, this]
      · simp [dictInsert, dictGet, hp, hk, ih]

theorem dictGet_append_single {α : Type} (d : PyDict α) (k : String) (v : α)
    (h : dictGet d k = none) : dictGet (d ++ [(k, v)]) k = some v := by
  induction d with
  | nil => simp [dictGet]
  | cons p d ih =>
    by_cases hp : p.1 = k
    · simp [dictGet, hp] at h
    · simp [dictGet, hp] at h ⊢
      exact ih h

/-! ## Claim C4: change detection by full-tuple equality -/

/-- C4: the stats change detector compares the full `(subs, views, videos)`
triple against `_last_stats`: on equality nothing is edited and the state
is unchanged; with no previous triple the update proceeds (state committed,
edits attempted); and after any run with triple `s`, a second run with the
same `s` performs no edits. -/
theorem C4_should_update (isVoice : Nat → Bool) (g : Nat) (ids : StatsChannelIds)
    (s : Stats) (last : Option Stats) :
    update_stats_channels isVoice g ids (some s) s = (some s, []) ∧
    update_stats_channels isVoice g ids none s = (some s, stats_edits isVoice g ids s) ∧
    (update_stats_channels isVoice g ids
      (update_stats_channels isVoice g ids last s).1 s).2 = [] := by
  refine ⟨by simp [update_stats_channels], by simp [update_stats_channels], ?_⟩
  by_cases h : last = some s
  · subst h
    simp [update_stats_channels]
  · simp [update_stats_channels, h]

/-! ## Claim C1 (corrected): a change triggers an edit of every surface -/

/-- C1, counterexample to the claim as stated: with previous stats
`(100, 200, 5)` and new stats `(101, 200, 5)` exactly one component
changed, yet the number of issued rename edits is not one (it is four:
subs, views, videos and goal are all edited). -/
theorem C1_counterexample :
    ¬ ((update_stats_channels (fun _ => true) 1000 ⟨some 1, some 2, some 3, some 4⟩
        (some (100, 200, 5)) (101, 200, 5)).2.length = 1) := by
  decide

/-- C1, amended: whenever the new triple differs from the stored previous
one, the operation commits the new triple and issues one rename edit for
every one of the four stats display surfaces that is resolvable (here: all
four), including the surfaces whose component did not change — not only
the changed one. -/
theorem C1_edits_every_surface (isVoice : Nat → Bool) (g : Nat) (a b c d : Nat)
    (last : Option Stats) (s : Stats)
    (h : last ≠ some s) (hv : ∀ i, isVoice i = true)
    (ha : a ≠ 0) (hb : b ≠ 0) (hc : c ≠ 0) (hd : d ≠ 0) :
    (update_stats_channels isVoice g ⟨some a, some b, some c, some d⟩ last s).1 = some s ∧
    (update_stats_channels isVoice g ⟨some a, some b, some c, some d⟩ last s).2.map Edit.chId
      = [a, b, c, d] := by
  simp [update_stats_channels, h, stats_edits, stats_updates, ha, hb, hc, hd, hv]

/-- C1 witness: the amended statement at the spec's own scenario,
previous `(100, 200, 5)`, new `(101, 200, 5)`. -/
theorem C1_edits_every_surface_witness :
    (update_stats_channels (fun _ => true) 1000 ⟨some 1, some 2, some 3, some 4⟩
      (some (100, 200, 5)) (101, 200, 5)).1 = some (101, 200, 5) ∧
    (update_stats_channels (fun _ => true) 1000 ⟨some 1, some 2, some 3, some 4⟩
      (some (100, 200, 5)) (101, 200, 5)).2.map Edit.chId = [1, 2, 3, 4] :=
  C1_edits_every_surface (fun _ => true) 1000 1 2 3 4 (some (100, 200, 5)) (101, 200, 5)
    (by decide) (fun _ => rfl) (by decide) (by decide) (by decide) (by decide)

/-! ## Claim C10: the new triple is committed before any edit is attempted -/

/-- C10: when the fetched triple differs from the stored one, the trace of
`update_stats_channels` starts with the `_last_stats` assignment, before
any edit attempt; the committed state does not depend on edit outcomes
(`editOk` is arbitrary, e.g. everything failing); and a later cycle that
fetches the same triple attempts no edits at all. -/
theorem C10_commit_before_edits (isVoice editOk editOk2 : Nat → Bool) (g : Nat)
    (ids : StatsChannelIds) (last : Option Stats) (s : Stats) (h : last ≠ some s) :
    (update_stats_channels_trace isVoice editOk g ids last s).2.head?
      = some (StatsEv.commit s) ∧
    (update_stats_channels_trace isVoice editOk g ids last s).1 = some s ∧
    (update_stats_channels_trace isVoice editOk2 g ids
      (update_stats_channels_trace isVoice editOk g ids last s).1 s).2 = [] := by
  simp [update_stats_channels_trace, h]

/-- C10 witness: first observation of `(101, 200, 5)` with every edit
failing. -/
theorem C10_commit_before_edits_witness :
    (update_stats_channels_trace (fun _ => true) (fun _ => false) 1000
      ⟨some 1, some 2, some 3, some 4⟩ none (101, 200, 5)).2.head?
      = some (StatsEv.commit (101, 200, 5)) ∧
    (update_stats_channels_trace (fun _ => true) (fun _ => false) 1000
      ⟨some 1, some 2, some 3, some 4⟩ none (101, 200, 5)).1 = some (101, 200, 5) ∧
    (update_stats_channels_trace (fun _ => true) (fun _ => false) 1000
      ⟨some 1, some 2, some 3, some 4⟩
      (update_stats_channels_trace (fun _ => true) (fun _ => false) 1000
        ⟨some 1, some 2, some 3, some 4⟩ none (101, 200, 5)).1 (101, 200, 5)).2 = [] :=
  C10_commit_before_edits (fun _ => true) (fun _ => false) (fun _ => false) 1000
    ⟨some 1, some 2, some 3, some 4⟩ none (101, 200, 5) (by decide)

/-! ## Claim C6: canonical-link policy of the live classifier -/

/-- C6: when the canonical link targets a watch resource and the secondary
fetch raises, the classifier returns Live; when the canonical link targets
a generic channel resource instead, it returns Offline and the secondary
fetch is never performed (for every possible fetch oracle). -/
theorem C6_canonical_policy (href html : String) (fetch2 : String → Option String) :
    (containsSub href "/watch" = true →
      yt_is_live_noapi (some href) (fun _ => none) html = (some LiveState.live, true)) ∧
    (containsSub href "/watch" = false → containsSub href "/channel/" = true →
      yt_is_live_noapi (some href) fetch2 html = (some LiveState.offline, false)) := by
  constructor
  · intro hw
    simp [yt_is_live_noapi, hw]
  · intro hw hc
    simp [yt_is_live_noapi, hw, hc]

/-- C6 witness: a watch canonical link with a failing secondary fetch, and
a channel canonical link with an always-succeeding fetch oracle. -/
theorem C6_canonical_policy_witness :
    yt_is_live_noapi (some "/watch?v=abc") (fun _ => none) ""
      = (some LiveState.live, true) ∧
    yt_is_live_noapi (some "/channel/UCx") (fun _ => some "") ""
      = (some LiveState.offline, false) :=
  ⟨(C6_canonical_policy "/watch?v=abc" "" (fun _ => none)).1 (by decide),
   (C6_canonical_policy "/channel/UCx" "" (fun _ => some "")).2 (by decide) (by decide)⟩

/-! ## Claim C5: Unknown never overwrites the last resolved state -/

/-- C5: on a live page without any recognized marker (no canonical-link
match, no live/offline/upcoming flag) the classifier returns Unknown
(`none`), and the polling step then retains the stored resolved state and
performs neither a display edit nor a notification. -/
theorem C5_unknown_preserves_state (fetch2 : String → Option String) (html : String)
    (h1 : liveFlags html = false) (h2 : offlineFlags html = false)
    (h3 : upcomingFlags html = false)
    (chName : String) (alert : Bool) (lastLive : Option LiveState) :
    (yt_is_live_noapi none fetch2 html).1 = none ∧
    live_status_step chName alert lastLive (yt_is_live_noapi none fetch2 html).1
      = (lastLive, false, false) := by
  have hcls : yt_is_live_noapi none fetch2 html = (none, false) := by
    simp [yt_is_live_noapi, h1, h2, h3]
  rw [hcls]
  exact ⟨rfl, rfl⟩

/-- C5 witness: markup `"x"` matches no marker; the previous resolved state
Live is retained with no edit and no notification. -/
theorem C5_unknown_preserves_state_witness :
    (yt_is_live_noapi none (fun _ => none) "x").1 = none ∧
    live_status_step "🟢 LIVE" true (some LiveState.live)
      ((yt_is_live_noapi none (fun _ => none) "x").1)
      = (some LiveState.live, false, false) :=
  C5_unknown_preserves_state (fun _ => none) "x" (by decide) (by decide) (by decide)
    "🟢 LIVE" true (some LiveState.live)

/-! ## Claim C7: the reminder pop/reinsert cycle -/

/-- C7: popping the last entry of a non-empty queue and reinserting it at
any position `k` of the shorter queue (randint range `0 ≤ k ≤ len-1`)
succeeds, preserves the queue length and preserves the multiset of
entries; for a queue of size 1 the only position is 0 and the cycle
returns the queue unchanged. -/
theorem C7_pop_reinsert {α : Type} (q : List α) (k : Nat)
    (hq : q ≠ []) (hk : k ≤ q.length - 1) :
    (∃ q', reminder_cycle q k = some q' ∧ q'.length = q.length ∧
      (q' : Multiset α) = (q : Multiset α)) ∧
    (q.length = 1 → reminder_cycle q 0 = some q) := by
  constructor
  · have hlast : q.getLast? = some (q.getLast hq) :=
      List.getLast?_eq_getLast_of_ne_nil hq
    refine ⟨pyInsert q.dropLast k (q.getLast hq), ?_, ?_, ?_⟩
    · simp [reminder_cycle, hlast]
    · have h1 : q.dropLast.length = q.length - 1 := List.length_dropLast q
      have h2 : 0 < q.length := List.length_pos.mpr hq
      simp only [pyInsert, List.length_append, List.length_take, List.length_cons,
        List.length_drop]
      omega
    · rw [Multiset.coe_eq_coe]
      have p1 : (pyInsert q.dropLast k (q.getLast hq)).Perm
          (q.getLast hq :: (q.dropLast.take k ++ q.dropLast.drop k)) :=
        List.perm_middle
      rw [List.take_append_drop] at p1
      have p2 : (q.getLast hq :: q.dropLast).Perm (q.dropLast ++ [q.getLast hq]) :=
        (List.perm_append_singleton _ _).symm
      have p3 := p1.trans p2
      rwa [List.dropLast_append_getLast hq] at p3
  · intro h1
    obtain ⟨a, rfl⟩ := List.length_eq_one.mp h1
    simp [reminder_cycle, pyInsert]

/-- C7 witness: the size-1 queue `["v"]` with the forced position 0. -/
theorem C7_pop_reinsert_witness :
    (∃ q', reminder_cycle ["v"] 0 = some q' ∧ q'.length = (["v"] : List String).length ∧
      (q' : Multiset String) = ((["v"] : List String) : Multiset String)) ∧
    ((["v"] : List String).length = 1 → reminder_cycle ["v"] 0 = some ["v"]) :=
  C7_pop_reinsert ["v"] 0 (by decide) (by decide)

/-! ## Claim C8: the feed parser's acceptance rule -/

theorem optTruthy_getD {o : Option String} (h : optTruthy o = true) : o.getD "" ≠ "" := by
  cases o with
  | none => simp [optTruthy] at h
  | some s =>
    simp only [optTruthy, ne_eq, decide_eq_true_eq] at h
    simpa using h

theorem parseEntryCandidate_some {c : RssCandidate} {e : FeedEntry}
    (h : parseEntryCandidate c = some e) : e.id ≠ "" ∧ e.link ≠ "" := by
  simp only [parseEntryCandidate] at h
  split at h
  · rename_i hcond
    cases h
    exact ⟨optTruthy_getD hcond.1, optTruthy_getD hcond.2⟩
  · exact Option.noConfusion h

theorem parseEntryCandidate_none {c : RssCandidate}
    (h : optTruthy c.videoIdText.join = false ∨ optTruthy c.linkHref.join = false) :
    parseEntryCandidate c = none := by
  simp only [parseEntryCandidate]
  have hneg : ¬ (optTruthy c.videoIdText.join = true ∧ optTruthy c.linkHref.join = true) := by
    rcases h with h | h
    · intro hC
      rw [h] at hC
      exact Bool.false_ne_true hC.1
    · intro hC
      rw [h] at hC
      exact Bool.false_ne_true hC.2
  rw [if_neg hneg]

/-- C8: every entry produced by the parser has a non-empty id and a
non-empty link; a candidate whose video id or link is missing or empty
contributes nothing to the output; and a candidate with no title element
but valid id and link is kept with the placeholder title `"Video"`. -/
theorem C8_parse_acceptance (cs : List RssCandidate) :
    (∀ e ∈ parse_rss_entries cs, e.id ≠ "" ∧ e.link ≠ "") ∧
    (∀ c : RssCandidate,
      optTruthy c.videoIdText.join = false ∨ optTruthy c.linkHref.join = false →
      parse_rss_entries [c] = []) ∧
    (∀ (c : RssCandidate) (v l : String), c.titleText = none →
      c.videoIdText.join = some v → v ≠ "" → c.linkHref.join = some l → l ≠ "" →
      parse_rss_entries [c] = [⟨v, some "Video", l, c.thumbUrls.getLast?.join⟩]) := by
  refine ⟨?_, ?_, ?_⟩
  · intro e he
    simp only [parse_rss_entries, List.mem_filterMap] at he
    obtain ⟨c, -, hfc⟩ := he
    exact parseEntryCandidate_some hfc
  · intro c hc
    simp [parse_rss_entries, parseEntryCandidate_none hc]
  · intro c v l ht hv hvne hl hlne
    have hone : parseEntryCandidate c = some ⟨v, some "Video", l, c.thumbUrls.getLast?.join⟩ := by
      simp only [parseEntryCandidate]
      rw [hv, hl, ht]
      simp [optTruthy, hvne, hlne]
    simp [parse_rss_entries, hone]

/-- C8 witness: a candidate with no title element, id `"v1"` and link
`"L"` is kept with the placeholder title; a candidate with an empty video
id is dropped. -/
theorem C8_parse_acceptance_witness :
    parse_rss_entries [⟨none, some (some "L"), some (some "v1"), []⟩]
      = [⟨"v1", some "Video", "L", none⟩] ∧
    parse_rss_entries [⟨some (some "T"), some (some "L"), some (some ""), []⟩] = [] :=
  ⟨(C8_parse_acceptance []).2.2 ⟨none, some (some "L"), some (some "v1"), []⟩ "v1" "L"
      rfl rfl (by decide) rfl (by decide),
   (C8_parse_acceptance []).2.1 ⟨some (some "T"), some (some "L"), some (some ""), []⟩
      (Or.inl (by decide))⟩

/-! ## Claim C3: the partial merge of cached entries -/

theorem accumulate_cons_present {cache : PyDict FeedEntry} {e old : FeedEntry}
    {es : List FeedEntry} (h : dictGet cache e.id = some old) :
    accumulate_from_rss cache (e :: es)
      = accumulate_from_rss (dictInsert cache e.id (mergeEntry old e)) es := by
  simp [accumulate_from_rss, h]

theorem accumulate_cons_absent {cache : PyDict FeedEntry} {e : FeedEntry}
    {es : List FeedEntry} (h : dictGet cache e.id = none) :
    accumulate_from_rss cache (e :: es)
      = ((accumulate_from_rss (cache ++ [(e.id, e)]) es).1,
         (accumulate_from_rss (cache ++ [(e.id, e)]) es).2 + 1) := by
  simp [accumulate_from_rss, h]

/-- C3: when the incoming entry's id is already cached, the merge stores
exactly `mergeEntry old new`, which overwrites only the truthy incoming
fields — in particular a falsy incoming thumbnail leaves the stored one
unchanged; and merging the same entry twice, the second time without a
thumbnail, preserves the first occurrence's thumbnail. -/
theorem C3_partial_merge (cache : PyDict FeedEntry) (old e : FeedEntry)
    (h : dictGet cache e.id = some old) :
    dictGet (accumulate_from_rss cache [e]).1 e.id = some (mergeEntry old e) ∧
    (optTruthy e.thumb = false → (mergeEntry old e).thumb = old.thumb) ∧
    (∀ (cache2 : PyDict FeedEntry) (e1 e2 : FeedEntry),
      dictGet cache2 e1.id = none → e2.id = e1.id → optTruthy e2.thumb = false →
      dictGet (accumulate_from_rss (accumulate_from_rss cache2 [e1]).1 [e2]).1 e1.id
        = some (mergeEntry e1 e2) ∧ (mergeEntry e1 e2).thumb = e1.thumb) := by
  refine ⟨?_, ?_, ?_⟩
  · rw [accumulate_cons_present h]
    simp [accumulate_from_rss, dictGet_dictInsert]
  · intro hT
    simp [mergeEntry, hT]
  · intro cache2 e1 e2 h0 hid hT
    have s1 : (accumulate_from_rss cache2 [e1]).1 = cache2 ++ [(e1.id, e1)] := by
      rw [accumulate_cons_absent h0]
      simp [accumulate_from_rss]
    have s2 : dictGet (cache2 ++ [(e1.id, e1)]) e2.id = some e1 := by
      rw [hid]
      exact dictGet_append_single _ _ _ h0
    constructor
    · rw [s1, accumulate_cons_present s2]
      simp [accumulate_from_rss, dictGet_dictInsert, hid]
    · simp [mergeEntry, hT]

/-- C3 witness: the entry `"a"` first cached with thumbnail `"th"`, merged
again without a thumbnail, keeps `"th"`; likewise through the
insert-then-merge double cycle from the empty cache. -/
theorem C3_partial_merge_witness :
    dictGet (accumulate_from_rss [("a", ⟨"a", some "T", "L", some "th"⟩)]
        [⟨"a", some "T2", "L", none⟩]).1 "a"
      = some (mergeEntry ⟨"a", some "T", "L", some "th"⟩ ⟨"a", some "T2", "L", none⟩) ∧
    (mergeEntry ⟨"a", some "T", "L", some "th"⟩ ⟨"a", some "T2", "L", none⟩).thumb
      = some "th" ∧
    dictGet (accumulate_from_rss
        (accumulate_from_rss [] [⟨"a", some "T", "L", some "th"⟩]).1
        [⟨"a", some "T2", "L", none⟩]).1 "a"
      = some (mergeEntry ⟨"a", some "T", "L", some "th"⟩ ⟨"a", some "T2", "L", none⟩) :=
  ⟨(C3_partial_merge [("a", ⟨"a", some "T", "L", some "th"⟩)]
      ⟨"a", some "T", "L", some "th"⟩ ⟨"a", some "T2", "L", none⟩ (by decide)).1,
   (C3_partial_merge [("a", ⟨"a", some "T", "L", some "th"⟩)]
      ⟨"a", some "T", "L", some "th"⟩ ⟨"a", some "T2", "L", none⟩ (by decide)).2.1 (by decide),
   ((C3_partial_merge [("a", ⟨"a", some "T", "L", some "th"⟩)]
      ⟨"a", some "T", "L", some "th"⟩ ⟨"a", some "T2", "L", none⟩ (by decide)).2.2
      [] ⟨"a", some "T", "L", some "th"⟩ ⟨"a", some "T2", "L", none⟩
      (by decide) (by decide) (by decide)).1⟩

/-! ## Claim C9: the cache file is written iff something was added -/

theorem accumulate_added_eq_zero_iff (es : List FeedEntry) :
    ∀ cache : PyDict FeedEntry,
      (accumulate_from_rss cache es).2 = 0 ↔ ∀ e ∈ es, dictGet cache e.id ≠ none := by
  induction es with
  | nil =>
    intro cache
    simp [accumulate_from_rss]
  | cons e es ih =>
    intro cache
    cases hget : dictGet cache e.id with
    | none =>
      rw [accumulate_cons_absent hget]
      constructor
      · intro h
        exact absurd h (Nat.succ_ne_zero _)
      · intro h
        exact absurd hget (h e (List.mem_cons_self _ _))
    | some old =>
      rw [accumulate_cons_present hget, ih]
      constructor
      · intro h e' he'
        rcases List.mem_cons.mp he' with rfl | he'
        · simp [hget]
        · have h2 := h e' he'
          rw [dictGet_dictInsert] at h2
          by_cases hk : e.id = e'.id
          · rw [← hk]
            simp [hget]
          · rwa [if_neg hk] at h2
      · intro h e' he'
        rw [dictGet_dictInsert]
        by_cases hk : e.id = e'.id
        · simp [hk]
        · rw [if_neg hk]
          exact h e' (List.mem_cons_of_mem _ he')

/-- C9: one feed-refresh cycle writes the cache file exactly when the merge
counter is at least one, which happens exactly when some fetched entry's
id was not yet in the cache. -/
theorem C9_save_iff_added (cache : PyDict FeedEntry) (entries : List FeedEntry) :
    ((rss_refresh_cycle cache entries).2.2 = true ↔
      1 ≤ (rss_refresh_cycle cache entries).2.1) ∧
    ((rss_refresh_cycle cache entries).2.2 = true ↔
      ∃ e ∈ entries, dictGet cache e.id = none) := by
  constructor
  · simp only [rss_refresh_cycle, decide_eq_true_eq]
    omega
  · simp only [rss_refresh_cycle, decide_eq_true_eq]
    rw [Ne, accumulate_added_eq_zero_iff]
    push_neg
    rfl

/-! ## Claim C2: size of the persisted channel-id store -/

theorem dictKeys_cons {α : Type} (p : String × α) (d : PyDict α) :
    dictKeys (p :: d) = p.1 :: dictKeys d := rfl

theorem dictKeys_dictInsert {α : Type} (d : PyDict α) (k : String) (v : α) :
    dictKeys (dictInsert d k v)
      = if k ∈ dictKeys d then dictKeys d else dictKeys d ++ [k] := by
  induction d with
  | nil => simp [dictInsert, dictKeys]
  | cons p d ih =>
    by_cases hp : p.1 = k
    · subst hp
      rw [show dictInsert (p :: d) p.1 v = (p.1, v) :: d from by simp [dictInsert]]
      rw [dictKeys_cons, dictKeys_cons, if_pos (List.mem_cons_self _ _)]
    · have hk : k ≠ p.1 := fun h => hp h.symm
      rw [show dictInsert (p :: d) k v = p :: dictInsert d k v from by simp [dictInsert, hp]]
      rw [dictKeys_cons, dictKeys_cons, ih]
      by_cases hm : k ∈ dictKeys d
      · rw [if_pos hm, if_pos (List.mem_cons_of_mem _ hm)]
      · rw [if_neg hm, if_neg (by simp [List.mem_cons, hk, hm])]
        rfl

theorem dictKeys_dictInsert_mem {α : Type} {d : PyDict α} {k x : String} {v : α}
    (hx : x ∈ dictKeys (dictInsert d k v)) : x ∈ dictKeys d ∨ x = k := by
  rw [dictKeys_dictInsert] at hx
  by_cases hm : k ∈ dictKeys d
  · rw [if_pos hm] at hx
    exact Or.inl hx
  · rw [if_neg hm] at hx
    rcases List.mem_append.mp hx with hx | hx
    · exact Or.inl hx
    · exact Or.inr (List.mem_singleton.mp hx)

theorem dictKeys_dictInsert_nodup {α : Type} (d : PyDict α) (k : String) (v : α)
    (h : (dictKeys d).Nodup) : (dictKeys (dictInsert d k v)).Nodup := by
  rw [dictKeys_dictInsert]
  by_cases hm : k ∈ dictKeys d
  · rwa [if_pos hm]
  · rw [if_neg hm]
    simp [List.nodup_append, h, hm]

theorem dictKeys_dictUpdate_subset {α : Type} (kvs : List (String × α)) :
    ∀ d : PyDict α, ∀ x ∈ dictKeys (dictUpdate d kvs), x ∈ dictKeys d ∨ x ∈ dictKeys kvs := by
  induction kvs with
  | nil =>
    intro d x hx
    exact Or.inl hx
  | cons p kvs ih =>
    intro d x hx
    rcases ih (dictInsert d p.1 p.2) x hx with hx2 | hx2
    · rcases dictKeys_dictInsert_mem hx2 with hx3 | hx3
      · exact Or.inl hx3
      · exact Or.inr (by rw [hx3]; exact List.mem_cons_self _ _)
    · exact Or.inr (List.mem_cons_of_mem _ hx2)

theorem dictKeys_dictUpdate_nodup {α : Type} (kvs : List (String × α)) :
    ∀ d : PyDict α, (dictKeys d).Nodup → (dictKeys (dictUpdate d kvs)).Nodup := by
  induction kvs with
  | nil =>
    intro d h
    exact h
  | cons p kvs ih =>
    intro d h
    exact ih _ (dictKeys_dictInsert_nodup _ _ _ h)

theorem dictKeys_save_ids_sublist (d : PyDict (Option Nat)) :
    (dictKeys (save_ids d)).Sublist (dictKeys d) := by
  induction d with
  | nil => simp [save_ids, dictKeys]
  | cons p d ih =>
    cases hp : p.2 with
    | none =>
      simp only [save_ids, List.filterMap_cons, hp, dictKeys] at ih ⊢
      exact ih.cons _
    | some n =>
      by_cases hn : n ≠ 0
      · simp only [save_ids, List.filterMap_cons, hp, if_pos hn, dictKeys] at ih ⊢
        exact ih.cons₂ _
      · simp only [save_ids, List.filterMap_cons, hp, if_neg hn, dictKeys] at ih ⊢
        exact ih.cons _

theorem dictKeys_load_ids_sublist (file : PyDict JVal) :
    (dictKeys (load_ids (some file))).Sublist (dictKeys file) := by
  induction file with
  | nil => simp [load_ids, dictKeys]
  | cons p d ih =>
    cases hp : jvalAsId p.2 with
    | none =>
      simp only [load_ids, List.filterMap_cons, hp, Option.map_none, dictKeys] at ih ⊢
      exact ih.cons _
    | some n =>
      simp only [load_ids, List.filterMap_cons, hp, Option.map_some, dictKeys] at ih ⊢
      exact ih.cons₂ _

theorem dictKeys_map_val {α β : Type} (d : PyDict α) (f : α → β) :
    dictKeys (d.map (fun p => (p.1, f p.2))) = dictKeys d := by
  induction d with
  | nil => rfl
  | cons p d ih =>
    simp only [dictKeys, List.map_cons] at ih ⊢
    rw [ih]

theorem length_le_of_nodup_subset {l L : List String} (hn : l.Nodup)
    (hs : ∀ x ∈ l, x ∈ L) : l.length ≤ L.length := by
  calc l.length = l.toFinset.card := (List.toFinset_card_of_nodup hn).symm
    _ ≤ L.toFinset.card :=
      Finset.card_le_card (fun x hx => List.mem_toFinset.mpr (hs x (List.mem_toFinset.mp hx)))
    _ ≤ L.length := List.toFinset_card_le L

/-- C2, counterexample to the claim as stated: a pre-existing store file
with the extraneous key `"extra"` survives the load → resolve → save cycle,
so the persisted store has 7 entries — more than the six defined roles. -/
theorem C2_counterexample :
    ¬ ((ensure_ids_cycle (some [("extra", JVal.jint 7)])
        ⟨some 1, some 2, some 3, some 4, some 5, some 6⟩).length ≤ 6) := by
  decide

/-- C2, amended: the persisted store has at most six entries whenever every
key of the pre-existing file is one of the six role keys (in particular
when the file is missing or corrupt); extraneous keys of a pre-existing
file are preserved, so with them the bound can be exceeded. -/
theorem C2_store_bounded_by_roles (file : PyDict JVal) (vc : VcIds)
    (hnd : (dictKeys file).Nodup)
    (hsub : ∀ k ∈ dictKeys file, k ∈ roleKeys) :
    (ensure_ids_cycle (some file) vc).length ≤ 6 ∧
    (ensure_ids_cycle none vc).length ≤ 6 := by
  have main : ∀ cache : PyDict (Option Nat), (dictKeys cache).Nodup →
      (∀ k ∈ dictKeys cache, k ∈ roleKeys) →
      (save_ids (dictUpdate cache
        [("subs", vc.subs), ("views", vc.views), ("videos", vc.videos),
         ("goal", vc.goal), ("members", vc.members), ("live", vc.live)])).length ≤ 6 := by
    intro cache hcn hcs
    have hD_nodup := dictKeys_dictUpdate_nodup
      [("subs", vc.subs), ("views", vc.views), ("videos", vc.videos),
       ("goal", vc.goal), ("members", vc.members), ("live", vc.live)] cache hcn
    have hD_sub : ∀ x ∈ dictKeys (dictUpdate cache
        [("subs", vc.subs), ("views", vc.views), ("videos", vc.videos),
         ("goal", vc.goal), ("members", vc.members), ("live", vc.live)]), x ∈ roleKeys := by
      intro x hx
      rcases dictKeys_dictUpdate_subset _ cache x hx with hx2 | hx2
      · exact hcs x hx2
      · simpa [dictKeys, roleKeys] using hx2
    have hS := dictKeys_save_ids_sublist (dictUpdate cache
      [("subs", vc.subs), ("views", vc.views), ("videos", vc.videos),
       ("goal", vc.goal), ("members", vc.members), ("live", vc.live)])
    have hlen := length_le_of_nodup_subset (hS.nodup hD_nodup)
      (fun x hx => hD_sub x (hS.subset hx))
    simpa [dictKeys, roleKeys] using hlen
  constructor
  · have hkeys : dictKeys ((load_ids (some file)).map (fun p => (p.1, some p.2)))
        = dictKeys (load_ids (some file)) := dictKeys_map_val _ _
    have hload := dictKeys_load_ids_sublist file
    apply main
    · rw [hkeys]
      exact hload.nodup hnd
    · intro k hk
      rw [hkeys] at hk
      exact hsub k (hload.subset hk)
  · apply main
    · simp [load_ids, dictKeys]
    · simp [load_ids, dictKeys]

/-- C2 witness: a well-formed pre-existing file holding only the role key
`"subs"`. -/
theorem C2_store_bounded_by_roles_witness :
    (ensure_ids_cycle (some [("subs", JVal.jint 1)])
      ⟨some 1, some 2, some 3, some 4, some 5, some 6⟩).length ≤ 6 ∧
    (ensure_ids_cycle none ⟨some 1, some 2, some 3, some 4, some 5, some 6⟩).length ≤ 6 :=
  C2_store_bounded_by_roles [("subs", JVal.jint 1)]
    ⟨some 1, some 2, some 3, some 4, some 5, some 6⟩ (by decide) (by decide)

end YTBot
